import Mathlib

/-
Verification of the North South University Management System
(tanvirshikdar/North-South-University-Management-System).

The repository ships the header `university_management.h`, which fully
defines the record structures (`Student`, `Faculty`, `Course`) and declares
the four manager classes (`StudentManager`, `FacultyManager`,
`CourseManager`, `UniversityManager`) together with doc comments; no
implementation file with the method bodies is present in the repository.
The record structures below are translated from the header; every operation
body is modelled from the specification (spec.md sections 4 and 7), which
describes the intended behaviour of each declared method.

C++ exceptions over mutable state are embedded by returning the resulting
state together with an optional error: mutations performed before a throw
persist, exactly as they do for the in-place C++ maps.
-/

namespace NSU

/-- The single error kind of the system: spec section 7 says the only error
is NotFound, raised by mutating association operations on a missing id
(`std::runtime_error` in the header's doc comments). -/
inductive Err where
  | notFound : Err
deriving DecidableEq

/-- Translated from `struct Student` in the header: unique integer id, name,
and the set of course ids the student is enrolled in. -/
structure Student where
  student_id : Int
  name : String
  courses : Finset Int
deriving DecidableEq

/-- Translated from `struct Faculty` in the header: unique integer id, name,
and the set of course ids the faculty member is teaching. -/
structure Faculty where
  faculty_id : Int
  name : String
  courses : Finset Int
deriving DecidableEq

/-- Translated from `struct Course` in the header: unique integer id, name,
the id of the faculty member teaching the course, and the set of enrolled
student ids. -/
structure Course where
  course_id : Int
  name : String
  faculty_id : Int
  students : Finset Int
deriving DecidableEq

/-- Translated from `class StudentManager`: an `unordered_map` from student
id to student record, embedded as a partial map on `Int`. -/
structure StudentManager where
  student_records : Int → Option Student

/-- The empty student store (default-constructed `unordered_map`). -/
def StudentManager.empty : StudentManager := ⟨fun _ => none⟩

/-- Modelled from the spec: the header declares
`StudentManager::addStudent(student_id, name)` but its body is absent from
the repository. Spec 4.1: inserts a new student with an empty course set;
if the id already exists it overwrites silently (last-write-wins). -/
def StudentManager.addStudent (m : StudentManager) (student_id : Int)
    (name : String) : StudentManager :=
  ⟨fun i => if i = student_id then some ⟨student_id, name, ∅⟩
            else m.student_records i⟩

/-- Modelled from the spec: the header declares
`StudentManager::enrollInCourse(student_id, course_id)` but its body is
absent from the repository. Spec 4.1: adds the course id to the named
student's course set; fails with NotFound if the student id is absent; does
not consult any course store. (The header's doc comment says it throws when
the course does not exist, but `StudentManager` holds no course data; the
spec's reading is the only implementable one.) -/
def StudentManager.enrollInCourse (m : StudentManager)
    (student_id course_id : Int) : StudentManager × Option Err :=
  match m.student_records student_id with
  | none => (m, some Err.notFound)
  | some st =>
      (⟨fun i => if i = student_id
                 then some { st with courses := insert course_id st.courses }
                 else m.student_records i⟩, none)

/-- Modelled from the spec: the header declares
`StudentManager::getStudentCourses(student_id)` but its body is absent from
the repository. Spec 4.1: returns a copy of the student's course-id set, or
an empty set if the student is absent (non-throwing lookup). -/
def StudentManager.getStudentCourses (m : StudentManager)
    (student_id : Int) : Finset Int :=
  match m.student_records student_id with
  | none => ∅
  | some st => st.courses

/-- Translated from `class FacultyManager`: an `unordered_map` from faculty
id to faculty record. -/
structure FacultyManager where
  faculty_records : Int → Option Faculty

/-- The empty faculty store. -/
def FacultyManager.empty : FacultyManager := ⟨fun _ => none⟩

/-- Modelled from the spec: the header declares
`FacultyManager::addFaculty(faculty_id, name)` but its body is absent from
the repository. Spec 4.2: symmetric to `addStudent` (insert with empty
taught-course set, silent overwrite on duplicate id). -/
def FacultyManager.addFaculty (m : FacultyManager) (faculty_id : Int)
    (name : String) : FacultyManager :=
  ⟨fun i => if i = faculty_id then some ⟨faculty_id, name, ∅⟩
            else m.faculty_records i⟩

/-- Modelled from the spec: the header declares
`FacultyManager::assignCourse(faculty_id, course_id)` but its body is
absent from the repository. Spec 4.2: adds the course id to the faculty's
taught-course set, fails with NotFound if the faculty is absent. -/
def FacultyManager.assignCourse (m : FacultyManager)
    (faculty_id course_id : Int) : FacultyManager × Option Err :=
  match m.faculty_records faculty_id with
  | none => (m, some Err.notFound)
  | some fa =>
      (⟨fun i => if i = faculty_id
                 then some { fa with courses := insert course_id fa.courses }
                 else m.faculty_records i⟩, none)

/-- Modelled from the spec: the header declares
`FacultyManager::getFacultyCourses(faculty_id)` but its body is absent from
the repository. Spec 4.2: non-throwing read, empty set if absent. -/
def FacultyManager.getFacultyCourses (m : FacultyManager)
    (faculty_id : Int) : Finset Int :=
  match m.faculty_records faculty_id with
  | none => ∅
  | some fa => fa.courses

/-- Translated from `class CourseManager`: an `unordered_map` from course id
to course record. -/
structure CourseManager where
  course_records : Int → Option Course

/-- The empty course store. -/
def CourseManager.empty : CourseManager := ⟨fun _ => none⟩

/-- Modelled from the spec: the header declares
`CourseManager::addCourse(course_id, name, faculty_id)` but its body is
absent from the repository. Spec 4.3: inserts a new course record with the
given faculty id and an empty student set; no check that the faculty id
refers to an existing faculty member; silent overwrite on duplicate id. -/
def CourseManager.addCourse (m : CourseManager) (course_id : Int)
    (name : String) (faculty_id : Int) : CourseManager :=
  ⟨fun i => if i = course_id then some ⟨course_id, name, faculty_id, ∅⟩
            else m.course_records i⟩

/-- Modelled from the spec: the header declares
`CourseManager::enrollStudent(course_id, student_id)` but its body is
absent from the repository. Spec 4.3: adds the student id to the course's
student set; fails with NotFound if the course id is absent. -/
def CourseManager.enrollStudent (m : CourseManager)
    (course_id student_id : Int) : CourseManager × Option Err :=
  match m.course_records course_id with
  | none => (m, some Err.notFound)
  | some co =>
      (⟨fun i => if i = course_id
                 then some { co with students := insert student_id co.students }
                 else m.course_records i⟩, none)

/-- Modelled from the spec: the header declares
`CourseManager::getCourseStudents(course_id)` but its body is absent from
the repository. Spec 4.3: non-throwing read, empty set if absent. -/
def CourseManager.getCourseStudents (m : CourseManager)
    (course_id : Int) : Finset Int :=
  match m.course_records course_id with
  | none => ∅
  | some co => co.students

/-- Translated from `class UniversityManager`: the facade composing the
three leaf stores. -/
structure UniversityManager where
  student_manager : StudentManager
  faculty_manager : FacultyManager
  course_manager : CourseManager

/-- The empty registry (all three stores empty). -/
def UniversityManager.empty : UniversityManager :=
  ⟨StudentManager.empty, FacultyManager.empty, CourseManager.empty⟩

/-- Modelled from the spec: the header declares
`UniversityManager::addStudent` but its body is absent from the repository.
Spec 4.4: pass-through to the student store. -/
def UniversityManager.addStudent (u : UniversityManager) (student_id : Int)
    (name : String) : UniversityManager :=
  { u with student_manager := u.student_manager.addStudent student_id name }

/-- Modelled from the spec: the header declares
`UniversityManager::addFaculty` but its body is absent from the repository.
Spec 4.4: pass-through to the faculty store. -/
def UniversityManager.addFaculty (u : UniversityManager) (faculty_id : Int)
    (name : String) : UniversityManager :=
  { u with faculty_manager := u.faculty_manager.addFaculty faculty_id name }

/-- Modelled from the spec: the header declares
`UniversityManager::addCourse` but its body is absent from the repository.
Spec 4.4: pass-through to the course store. -/
def UniversityManager.addCourse (u : UniversityManager) (course_id : Int)
    (name : String) (faculty_id : Int) : UniversityManager :=
  { u with course_manager :=
      u.course_manager.addCourse course_id name faculty_id }

/-- Modelled from the spec: the header declares
`UniversityManager::enrollInCourse(student_id, course_id)` but its body is
absent from the repository. Spec 4.4: calls the student store's enroll
(fails if the student is missing), then the course store's `enrollStudent`
(fails if the course is missing); there is no cross-store atomicity, so a
failure of the second call leaves the first call's mutation in place. -/
def UniversityManager.enrollInCourse (u : UniversityManager)
    (student_id course_id : Int) : UniversityManager × Option Err :=
  match u.student_manager.enrollInCourse student_id course_id with
  | (sm, some e) => ({ u with student_manager := sm }, some e)
  | (sm, none) =>
      match u.course_manager.enrollStudent course_id student_id with
      | (cm, e2) =>
          ({ u with student_manager := sm, course_manager := cm }, e2)

/-- Modelled from the spec: the header declares
`UniversityManager::assignCourse(faculty_id, course_id)` but its body is
absent from the repository. Spec 4.4: calls the faculty store's assign; the
course record's faculty id is never updated by this operation. -/
def UniversityManager.assignCourse (u : UniversityManager)
    (faculty_id course_id : Int) : UniversityManager × Option Err :=
  match u.faculty_manager.assignCourse faculty_id course_id with
  | (fm, e) => ({ u with faculty_manager := fm }, e)

/-- Modelled from the spec: pure pass-through read (spec 4.4). -/
def UniversityManager.getStudentCourses (u : UniversityManager)
    (student_id : Int) : Finset Int :=
  u.student_manager.getStudentCourses student_id

/-- Modelled from the spec: pure pass-through read (spec 4.4). -/
def UniversityManager.getFacultyCourses (u : UniversityManager)
    (faculty_id : Int) : Finset Int :=
  u.faculty_manager.getFacultyCourses faculty_id

/-- Modelled from the spec: pure pass-through read (spec 4.4). -/
def UniversityManager.getCourseStudents (u : UniversityManager)
    (course_id : Int) : Finset Int :=
  u.course_manager.getCourseStudents course_id

/-- One facade operation, covering the full public interface of
`UniversityManager` as declared in the header. -/
inductive Op where
  | addStudent (student_id : Int) (name : String)
  | enrollInCourse (student_id course_id : Int)
  | getStudentCourses (student_id : Int)
  | addFaculty (faculty_id : Int) (name : String)
  | assignCourse (faculty_id course_id : Int)
  | getFacultyCourses (faculty_id : Int)
  | addCourse (course_id : Int) (name : String) (faculty_id : Int)
  | getCourseStudents (course_id : Int)
deriving DecidableEq

/-- State transition of one facade operation: reads leave the state
unchanged; a mutating call that throws still keeps the mutations it made
before throwing (the returned state of the embedded operation). -/
def UniversityManager.step (u : UniversityManager) : Op → UniversityManager
  | .addStudent id n => u.addStudent id n
  | .enrollInCourse s c => (u.enrollInCourse s c).1
  | .getStudentCourses _ => u
  | .addFaculty id n => u.addFaculty id n
  | .assignCourse f c => (u.assignCourse f c).1
  | .getFacultyCourses _ => u
  | .addCourse id n f => u.addCourse id n f
  | .getCourseStudents _ => u

/-- Run a sequence of facade operations from a given state. -/
def UniversityManager.run (u : UniversityManager) (ops : List Op) :
    UniversityManager :=
  ops.foldl UniversityManager.step u

/-- An operation is clean in a state when it neither overwrites an existing
student or course record nor attempts an enrollment whose student or course
is missing; clean operations are exactly those that keep the enrollment
symmetry of spec section 3 intact. -/
def goodStep (u : UniversityManager) : Op → Bool
  | .addStudent id _ => (u.student_manager.student_records id).isNone
  | .addCourse id _ _ => (u.course_manager.course_records id).isNone
  | .enrollInCourse s c =>
      (u.student_manager.student_records s).isSome &&
      (u.course_manager.course_records c).isSome
  | _ => true

/-- A sequence of facade operations is clean from a state when every step is
clean in the state it runs in. -/
def goodRun : UniversityManager → List Op → Bool
  | _, [] => true
  | u, op :: ops => goodStep u op && goodRun (u.step op) ops

/-- Enrollment symmetry (spec section 3): for every student and course both
present in their stores, the student is in the course's student set exactly
when the course is in the student's course set. -/
def EnrollSym (u : UniversityManager) : Prop :=
  ∀ S C st co, u.student_manager.student_records S = some st →
    u.course_manager.course_records C = some co →
    (S ∈ co.students ↔ C ∈ st.courses)

/-- Every student id recorded in some course's student set names a student
present in the student store. -/
def StudentEdgesClosed (u : UniversityManager) : Prop :=
  ∀ C co, u.course_manager.course_records C = some co →
    ∀ S, S ∈ co.students → (u.student_manager.student_records S).isSome

/-- Every course id recorded in some student's course set names a course
present in the course store. -/
def CourseEdgesClosed (u : UniversityManager) : Prop :=
  ∀ S st, u.student_manager.student_records S = some st →
    ∀ C, C ∈ st.courses → (u.course_manager.course_records C).isSome

/-- The inductive invariant maintained by clean facade runs: enrollment
symmetry together with closure of both edge sets. -/
def SymInv (u : UniversityManager) : Prop :=
  EnrollSym u ∧ StudentEdgesClosed u ∧ CourseEdgesClosed u

/-- A facade trace on which the claimed reachable-state symmetry fails: the
enrollment is attempted (and fails with NotFound) before the course is
added, so the student-side edge is recorded while the course record, added
afterwards, starts with an empty student set. -/
def symBreakTrace : List Op :=
  [Op.addStudent 1 "a", Op.enrollInCourse 1 2, Op.addCourse 2 "x" 0]

/-- A facade trace recording the enrollment edge between student 1 and
course 2; re-adding student 1 afterwards overwrites the record and erases
the edge on the student side. -/
def edgeTrace : List Op :=
  [Op.addStudent 1 "a", Op.addCourse 2 "x" 0, Op.enrollInCourse 1 2]

/-- Lookup after `addStudent` is the inserted record at the new id and the
old map elsewhere. -/
lemma StudentManager.addStudent_records (m : StudentManager) (id : Int)
    (n : String) (i : Int) :
    (m.addStudent id n).student_records i =
      if i = id then some ⟨id, n, ∅⟩ else m.student_records i := rfl

/-- Lookup after `addCourse` is the inserted record at the new id and the
old map elsewhere. -/
lemma CourseManager.addCourse_records (m : CourseManager) (id : Int)
    (n : String) (f : Int) (i : Int) :
    (m.addCourse id n f).course_records i =
      if i = id then some ⟨id, n, f, ∅⟩ else m.course_records i := rfl

/-- A facade enrollment on a missing student returns the state unchanged
together with NotFound: the student store throws before any mutation and
the course store is never reached. -/
lemma enrollInCourse_eq_of_student_none (u : UniversityManager) (S C : Int)
    (hs : u.student_manager.student_records S = none) :
    u.enrollInCourse S C = (u, some Err.notFound) := by
  simp [UniversityManager.enrollInCourse, StudentManager.enrollInCourse, hs]

/-- A facade enrollment whose student exists but whose course is missing
commits the student-side edge and then fails with NotFound from the course
store. -/
lemma enrollInCourse_eq_of_course_none (u : UniversityManager) (S C : Int)
    (st : Student) (hs : u.student_manager.student_records S = some st)
    (hc : u.course_manager.course_records C = none) :
    u.enrollInCourse S C =
      ({ u with student_manager :=
          ⟨fun i => if i = S
                    then some { st with courses := insert C st.courses }
                    else u.student_manager.student_records i⟩ },
       some Err.notFound) := by
  simp [UniversityManager.enrollInCourse, StudentManager.enrollInCourse,
    CourseManager.enrollStudent, hs, hc]

/-- A facade enrollment with both records present updates both stores and
succeeds. -/
lemma enrollInCourse_eq_of_both (u : UniversityManager) (S C : Int)
    (st : Student) (co : Course)
    (hs : u.student_manager.student_records S = some st)
    (hc : u.course_manager.course_records C = some co) :
    u.enrollInCourse S C =
      ({ u with
          student_manager :=
            ⟨fun i => if i = S
                      then some { st with courses := insert C st.courses }
                      else u.student_manager.student_records i⟩,
          course_manager :=
            ⟨fun i => if i = C
                      then some { co with students := insert S co.students }
                      else u.course_manager.course_records i⟩ },
       none) := by
  simp [UniversityManager.enrollInCourse, StudentManager.enrollInCourse,
    CourseManager.enrollStudent, hs, hc]

/-- A facade `assignCourse` never touches the course store. -/
lemma assignCourse_course_manager (u : UniversityManager) (f c : Int) :
    (u.assignCourse f c).1.course_manager = u.course_manager := by
  rcases h : u.faculty_manager.assignCourse f c with ⟨fm, e⟩
  simp [UniversityManager.assignCourse, h]

/-- A facade `assignCourse` never touches the student store. -/
lemma assignCourse_student_manager (u : UniversityManager) (f c : Int) :
    (u.assignCourse f c).1.student_manager = u.student_manager := by
  rcases h : u.faculty_manager.assignCourse f c with ⟨fm, e⟩
  simp [UniversityManager.assignCourse, h]

/-- C5. For every prior state and id/name pair, `addStudent` succeeds (it
is a total operation returning no error) and installs the record
`⟨id, name, ∅⟩`, silently overwriting any record previously stored at that
id; immediately afterwards `getStudentCourses id` is the empty set. -/
theorem addStudent_overwrites_and_empty_courses (u : UniversityManager)
    (id : Int) (n : String) :
    (u.addStudent id n).student_manager.student_records id = some ⟨id, n, ∅⟩ ∧
    (u.addStudent id n).getStudentCourses id = ∅ := by
  constructor
  · simp [UniversityManager.addStudent, StudentManager.addStudent_records]
  · simp [UniversityManager.getStudentCourses, UniversityManager.addStudent,
      StudentManager.getStudentCourses, StudentManager.addStudent]

/-- C8. The three facade reads are total functions (they return a set, never
an error, by their very type) and on an id absent from the relevant store
they return the empty set. -/
theorem reads_total_empty_on_unknown (u : UniversityManager) (id : Int) :
    (u.student_manager.student_records id = none →
      u.getStudentCourses id = ∅) ∧
    (u.faculty_manager.faculty_records id = none →
      u.getFacultyCourses id = ∅) ∧
    (u.course_manager.course_records id = none →
      u.getCourseStudents id = ∅) := by
  refine ⟨fun h => ?_, fun h => ?_, fun h => ?_⟩
  · simp [UniversityManager.getStudentCourses,
      StudentManager.getStudentCourses, h]
  · simp [UniversityManager.getFacultyCourses,
      FacultyManager.getFacultyCourses, h]
  · simp [UniversityManager.getCourseStudents,
      CourseManager.getCourseStudents, h]

/-- Witness for C8 at the empty registry and id 5. -/
theorem reads_total_empty_on_unknown_witness :
    UniversityManager.empty.getStudentCourses 5 = ∅ ∧
    UniversityManager.empty.getFacultyCourses 5 = ∅ ∧
    UniversityManager.empty.getCourseStudents 5 = ∅ :=
  ⟨(reads_total_empty_on_unknown UniversityManager.empty 5).1 rfl,
   (reads_total_empty_on_unknown UniversityManager.empty 5).2.1 rfl,
   (reads_total_empty_on_unknown UniversityManager.empty 5).2.2 rfl⟩

/-- C6. The leaf `StudentManager.enrollInCourse` fails with NotFound
exactly when the student id is absent from the student store; when the
student exists the call succeeds and adds the course id to the student's
set. The course store is structurally out of reach: `StudentManager`
holds no course data at all, so no existence check on the course is
possible or performed. -/
theorem studentManager_enroll_notFound_iff_absent (m : StudentManager)
    (id cid : Int) :
    ((m.enrollInCourse id cid).2 = some Err.notFound ↔
      m.student_records id = none) ∧
    (∀ st, m.student_records id = some st →
      (m.enrollInCourse id cid).2 = none ∧
      cid ∈ (m.enrollInCourse id cid).1.getStudentCourses id) := by
  cases h : m.student_records id with
  | none =>
      refine ⟨by simp [StudentManager.enrollInCourse, h], ?_⟩
      intro st hst
      simp at hst
  | some st =>
      refine ⟨by simp [StudentManager.enrollInCourse, h], ?_⟩
      intro st2 hst2
      obtain rfl : st2 = st := (Option.some.inj hst2).symm
      constructor
      · simp [StudentManager.enrollInCourse, h]
      · simp [StudentManager.enrollInCourse, StudentManager.getStudentCourses, h]

/-- Witness for C6: in a store holding only student 1, enrolling student 3
fails with NotFound, and enrolling student 1 in course 7 succeeds and
records course 7. -/
theorem studentManager_enroll_notFound_iff_absent_witness :
    ((StudentManager.empty.addStudent 1 "a").enrollInCourse 3 7).2 =
      some Err.notFound ∧
    ((StudentManager.empty.addStudent 1 "a").enrollInCourse 1 7).2 = none ∧
    7 ∈ ((StudentManager.empty.addStudent 1 "a").enrollInCourse 1 7).1.getStudentCourses 1 :=
  ⟨(studentManager_enroll_notFound_iff_absent
      (StudentManager.empty.addStudent 1 "a") 3 7).1.mpr (by decide),
   ((studentManager_enroll_notFound_iff_absent
      (StudentManager.empty.addStudent 1 "a") 1 7).2 ⟨1, "a", ∅⟩ (by decide)).1,
   ((studentManager_enroll_notFound_iff_absent
      (StudentManager.empty.addStudent 1 "a") 1 7).2 ⟨1, "a", ∅⟩ (by decide)).2⟩

/-- C7. A facade enrollment of a student id that was never added fails with
NotFound and leaves the whole state, and in particular every course's
student set, unchanged. -/
theorem facade_enroll_missing_student_no_effect (u : UniversityManager)
    (S C : Int) (h : u.student_manager.student_records S = none) :
    u.enrollInCourse S C = (u, some Err.notFound) ∧
    ∀ C2, (u.enrollInCourse S C).1.getCourseStudents C2 =
      u.getCourseStudents C2 := by
  have he := enrollInCourse_eq_of_student_none u S C h
  exact ⟨he, fun C2 => by rw [he]⟩

/-- Witness for C7: after adding only course 101, enrolling the absent
student 999 fails and course 101's student set stays empty. -/
theorem facade_enroll_missing_student_no_effect_witness :
    (UniversityManager.empty.addCourse 101 "algo" 1).enrollInCourse 999 101 =
      (UniversityManager.empty.addCourse 101 "algo" 1, some Err.notFound) ∧
    ((UniversityManager.empty.addCourse 101 "algo" 1).enrollInCourse 999 101).1.getCourseStudents 101 =
      (UniversityManager.empty.addCourse 101 "algo" 1).getCourseStudents 101 :=
  ⟨(facade_enroll_missing_student_no_effect
      (UniversityManager.empty.addCourse 101 "algo" 1) 999 101 rfl).1,
   (facade_enroll_missing_student_no_effect
      (UniversityManager.empty.addCourse 101 "algo" 1) 999 101 rfl).2 101⟩

/-- A facade enrollment that returns without error records the edge on both
sides: the course appears in the student's course set and the student in
the course's student set. -/
lemma enroll_success_mem (u : UniversityManager) (S C : Int)
    (h : (u.enrollInCourse S C).2 = none) :
    C ∈ (u.enrollInCourse S C).1.getStudentCourses S ∧
    S ∈ (u.enrollInCourse S C).1.getCourseStudents C := by
  cases hs : u.student_manager.student_records S with
  | none =>
      rw [enrollInCourse_eq_of_student_none u S C hs] at h
      cases h
  | some st =>
      cases hc : u.course_manager.course_records C with
      | none =>
          rw [enrollInCourse_eq_of_course_none u S C st hs hc] at h
          cases h
      | some co =>
          rw [enrollInCourse_eq_of_both u S C st co hs hc]
          constructor
          · simp [UniversityManager.getStudentCourses,
              StudentManager.getStudentCourses]
          · simp [UniversityManager.getCourseStudents,
              CourseManager.getCourseStudents]

/-- C1. If `addCourse(C, name, f)` has been called and the facade's
`enrollInCourse(S, C)` then returns without error, the subsequent reads see
the edge on both sides: `getStudentCourses S` contains `C` and
`getCourseStudents C` contains `S`. -/
theorem enroll_after_addCourse_symmetric (u : UniversityManager)
    (S C f : Int) (n : String)
    (h : ((u.addCourse C n f).enrollInCourse S C).2 = none) :
    C ∈ ((u.addCourse C n f).enrollInCourse S C).1.getStudentCourses S ∧
    S ∈ ((u.addCourse C n f).enrollInCourse S C).1.getCourseStudents C :=
  enroll_success_mem (u.addCourse C n f) S C h

/-- Witness for C1: add student 501 and course 101, enroll, and observe
both memberships. -/
theorem enroll_after_addCourse_symmetric_witness :
    (((UniversityManager.empty.addStudent 501 "bob").addCourse 101 "algo" 1).enrollInCourse 501 101).2 = none ∧
    101 ∈ (((UniversityManager.empty.addStudent 501 "bob").addCourse 101 "algo" 1).enrollInCourse 501 101).1.getStudentCourses 501 ∧
    501 ∈ (((UniversityManager.empty.addStudent 501 "bob").addCourse 101 "algo" 1).enrollInCourse 501 101).1.getCourseStudents 101 :=
  ⟨by decide,
   (enroll_after_addCourse_symmetric
      (UniversityManager.empty.addStudent 501 "bob") 501 101 1 "algo"
      (by decide)).1,
   (enroll_after_addCourse_symmetric
      (UniversityManager.empty.addStudent 501 "bob") 501 101 1 "algo"
      (by decide)).2⟩

/-- C2. The facade enrollment is not cross-store atomic: when the student
exists but the course does not, the call fails with NotFound, yet the
student-side edge is committed while the course side stays empty. -/
theorem enroll_missing_course_partial_update (u : UniversityManager)
    (S C : Int) (st : Student)
    (hs : u.student_manager.student_records S = some st)
    (hc : u.course_manager.course_records C = none) :
    (u.enrollInCourse S C).2 = some Err.notFound ∧
    C ∈ (u.enrollInCourse S C).1.getStudentCourses S ∧
    (u.enrollInCourse S C).1.getCourseStudents C = ∅ := by
  rw [enrollInCourse_eq_of_course_none u S C st hs hc]
  refine ⟨rfl, ?_, ?_⟩
  · simp [UniversityManager.getStudentCourses,
      StudentManager.getStudentCourses]
  · simp [UniversityManager.getCourseStudents,
      CourseManager.getCourseStudents, hc]

/-- Witness for C2: student 1 exists, course 2 was never added; the failed
enrollment records course 2 on the student side only. -/
theorem enroll_missing_course_partial_update_witness :
    ((UniversityManager.empty.addStudent 1 "a").enrollInCourse 1 2).2 =
      some Err.notFound ∧
    2 ∈ ((UniversityManager.empty.addStudent 1 "a").enrollInCourse 1 2).1.getStudentCourses 1 ∧
    ((UniversityManager.empty.addStudent 1 "a").enrollInCourse 1 2).1.getCourseStudents 2 = ∅ :=
  enroll_missing_course_partial_update
    (UniversityManager.empty.addStudent 1 "a") 1 2 ⟨1, "a", ∅⟩
    (by decide) (by decide)

/-- C10. Enrolling the same present (student, course) pair twice is
idempotent under set semantics: the second call leaves both read sets
exactly as after the first call, which already contains the edge on both
sides. -/
theorem enroll_idempotent (u : UniversityManager) (S C : Int)
    (hs : (u.student_manager.student_records S).isSome)
    (hc : (u.course_manager.course_records C).isSome) :
    C ∈ (u.enrollInCourse S C).1.getStudentCourses S ∧
    S ∈ (u.enrollInCourse S C).1.getCourseStudents C ∧
    ((u.enrollInCourse S C).1.enrollInCourse S C).1.getStudentCourses S =
      (u.enrollInCourse S C).1.getStudentCourses S ∧
    ((u.enrollInCourse S C).1.enrollInCourse S C).1.getCourseStudents C =
      (u.enrollInCourse S C).1.getCourseStudents C := by
  obtain ⟨st, hs⟩ := Option.isSome_iff_exists.mp hs
  obtain ⟨co, hc⟩ := Option.isSome_iff_exists.mp hc
  have h1 := enrollInCourse_eq_of_both u S C st co hs hc
  have hs1 : (u.enrollInCourse S C).1.student_manager.student_records S =
      some { st with courses := insert C st.courses } := by
    rw [h1]; simp
  have hc1 : (u.enrollInCourse S C).1.course_manager.course_records C =
      some { co with students := insert S co.students } := by
    rw [h1]; simp
  have h2 := enrollInCourse_eq_of_both (u.enrollInCourse S C).1 S C _ _ hs1 hc1
  refine ⟨?_, ?_, ?_, ?_⟩
  · rw [h1]
    simp [UniversityManager.getStudentCourses,
      StudentManager.getStudentCourses]
  · rw [h1]
    simp [UniversityManager.getCourseStudents,
      CourseManager.getCourseStudents]
  · rw [h2]
    simp [UniversityManager.getStudentCourses,
      StudentManager.getStudentCourses, hs1]
  · rw [h2]
    simp [UniversityManager.getCourseStudents,
      CourseManager.getCourseStudents, hc1]

/-- Witness for C10 with student 1 and course 2 both present. -/
theorem enroll_idempotent_witness :
    2 ∈ (((UniversityManager.empty.addStudent 1 "a").addCourse 2 "x" 0).enrollInCourse 1 2).1.getStudentCourses 1 ∧
    1 ∈ (((UniversityManager.empty.addStudent 1 "a").addCourse 2 "x" 0).enrollInCourse 1 2).1.getCourseStudents 2 ∧
    ((((UniversityManager.empty.addStudent 1 "a").addCourse 2 "x" 0).enrollInCourse 1 2).1.enrollInCourse 1 2).1.getStudentCourses 1 =
      (((UniversityManager.empty.addStudent 1 "a").addCourse 2 "x" 0).enrollInCourse 1 2).1.getStudentCourses 1 ∧
    ((((UniversityManager.empty.addStudent 1 "a").addCourse 2 "x" 0).enrollInCourse 1 2).1.enrollInCourse 1 2).1.getCourseStudents 2 =
      (((UniversityManager.empty.addStudent 1 "a").addCourse 2 "x" 0).enrollInCourse 1 2).1.getCourseStudents 2 :=
  enroll_idempotent
    ((UniversityManager.empty.addStudent 1 "a").addCourse 2 "x" 0) 1 2
    (by decide) (by decide)

/-- No facade operation other than re-adding course `C` itself ever changes
the faculty id stored in course `C`'s record. -/
lemma step_preserves_faculty_id (u : UniversityManager) (op : Op) (C : Int)
    (h : ∀ n f, op ≠ Op.addCourse C n f) :
    Option.map Course.faculty_id
      ((u.step op).course_manager.course_records C) =
    Option.map Course.faculty_id (u.course_manager.course_records C) := by
  cases op with
  | addStudent id n => rfl
  | addFaculty id n => rfl
  | assignCourse f c =>
      simp only [UniversityManager.step]
      rw [assignCourse_course_manager]
  | getStudentCourses id => rfl
  | getFacultyCourses id => rfl
  | getCourseStudents id => rfl
  | addCourse id n f =>
      have hne : C ≠ id := by
        intro hCid
        exact h n f (by rw [hCid])
      simp only [UniversityManager.step]
      simp [UniversityManager.addCourse, CourseManager.addCourse_records, hne]
  | enrollInCourse s c =>
      simp only [UniversityManager.step]
      cases hs : u.student_manager.student_records s with
      | none => rw [enrollInCourse_eq_of_student_none u s c hs]
      | some st =>
          cases hc : u.course_manager.course_records c with
          | none => rw [enrollInCourse_eq_of_course_none u s c st hs hc]
          | some co =>
              rw [enrollInCourse_eq_of_both u s c st co hs hc]
              by_cases hC : C = c
              · subst hC; simp [hc]
              · simp [hC]

/-- C4. A course record's faculty id is exactly the value passed to
`addCourse` (stored without any existence check on the faculty) and is
never changed afterwards: `assignCourse` does not touch the course store at
all, and no facade operation other than overwriting course `C` via
`addCourse` alters the stored faculty id. -/
theorem course_faculty_id_set_at_creation_only (u : UniversityManager)
    (C fid cid : Int) (n : String) :
    (u.addCourse C n fid).course_manager.course_records C =
      some ⟨C, n, fid, ∅⟩ ∧
    (u.assignCourse fid cid).1.course_manager = u.course_manager ∧
    (∀ op : Op, (∀ n2 f2, op ≠ Op.addCourse C n2 f2) →
      Option.map Course.faculty_id
        ((u.step op).course_manager.course_records C) =
      Option.map Course.faculty_id (u.course_manager.course_records C)) := by
  refine ⟨?_, assignCourse_course_manager u fid cid,
    fun op h => step_preserves_faculty_id u op C h⟩
  simp [UniversityManager.addCourse, CourseManager.addCourse_records]

/-- Witness for C4: after creating course 7 with faculty 3, an
`assignCourse(3, 7)` step leaves course 7's stored faculty id unchanged. -/
theorem course_faculty_id_set_at_creation_only_witness :
    Option.map Course.faculty_id
      (((UniversityManager.empty.addCourse 7 "x" 3).step
          (Op.assignCourse 3 7)).course_manager.course_records 7) =
    Option.map Course.faculty_id
      ((UniversityManager.empty.addCourse 7 "x" 3).course_manager.course_records 7) :=
  (course_faculty_id_set_at_creation_only
      (UniversityManager.empty.addCourse 7 "x" 3) 7 3 9 "y").2.2
    (Op.assignCourse 3 7) (by simp)

/-- The facade `assignCourse` updates only the faculty store, keeping the
rest of the state. -/
lemma assignCourse_fst (u : UniversityManager) (f c : Int) :
    (u.assignCourse f c).1 =
      { u with faculty_manager := (u.faculty_manager.assignCourse f c).1 } := by
  rcases h : u.faculty_manager.assignCourse f c with ⟨fm, e⟩
  simp [UniversityManager.assignCourse, h]

/-- A facade enrollment never touches the faculty store. -/
lemma enrollInCourse_faculty_manager (u : UniversityManager) (s c : Int) :
    (u.enrollInCourse s c).1.faculty_manager = u.faculty_manager := by
  cases hs : u.student_manager.student_records s with
  | none => rw [enrollInCourse_eq_of_student_none u s c hs]
  | some st =>
      cases hc : u.course_manager.course_records c with
      | none => rw [enrollInCourse_eq_of_course_none u s c st hs hc]
      | some co => rw [enrollInCourse_eq_of_both u s c st co hs hc]

/-- Any single facade operation that is not an overwriting `addStudent` of
student `S` can only grow `S`'s course set. -/
lemma step_getStudentCourses_mono (u : UniversityManager) (op : Op) (S : Int)
    (h : ∀ n, op ≠ Op.addStudent S n) :
    u.getStudentCourses S ⊆ (u.step op).getStudentCourses S := by
  cases op with
  | addStudent id n =>
      have hne : S ≠ id := by
        intro hS
        exact h n (by rw [hS])
      simp only [UniversityManager.step]
      simp [UniversityManager.getStudentCourses, UniversityManager.addStudent,
        StudentManager.getStudentCourses, StudentManager.addStudent_records, hne]
  | addFaculty id n => exact Finset.Subset.refl _
  | addCourse id n f => exact Finset.Subset.refl _
  | getStudentCourses id => exact Finset.Subset.refl _
  | getFacultyCourses id => exact Finset.Subset.refl _
  | getCourseStudents id => exact Finset.Subset.refl _
  | assignCourse f c =>
      simp only [UniversityManager.step, UniversityManager.getStudentCourses]
      rw [assignCourse_student_manager]
  | enrollInCourse s c =>
      simp only [UniversityManager.step]
      cases hs : u.student_manager.student_records s with
      | none =>
          rw [enrollInCourse_eq_of_student_none u s c hs]
      | some st =>
          have hmap : ∀ v : UniversityManager, v.student_manager =
              (⟨fun i => if i = s
                  then some { st with courses := insert c st.courses }
                  else u.student_manager.student_records i⟩ : StudentManager) →
              u.getStudentCourses S ⊆ v.getStudentCourses S := by
            intro v hv
            by_cases hSs : S = s
            · subst hSs
              simp [UniversityManager.getStudentCourses,
                StudentManager.getStudentCourses, hv, hs, Finset.subset_insert]
            · simp [UniversityManager.getStudentCourses,
                StudentManager.getStudentCourses, hv, hSs]
          cases hc : u.course_manager.course_records c with
          | none =>
              rw [enrollInCourse_eq_of_course_none u s c st hs hc]
              exact hmap _ rfl
          | some co =>
              rw [enrollInCourse_eq_of_both u s c st co hs hc]
              exact hmap _ rfl

/-- Any single facade operation that is not an overwriting `addFaculty` of
faculty `F` can only grow `F`'s taught-course set. -/
lemma step_getFacultyCourses_mono (u : UniversityManager) (op : Op) (F : Int)
    (h : ∀ n, op ≠ Op.addFaculty F n) :
    u.getFacultyCourses F ⊆ (u.step op).getFacultyCourses F := by
  cases op with
  | addFaculty id n =>
      have hne : F ≠ id := by
        intro hF
        exact h n (by rw [hF])
      simp only [UniversityManager.step]
      simp [UniversityManager.getFacultyCourses, UniversityManager.addFaculty,
        FacultyManager.getFacultyCourses, FacultyManager.addFaculty, hne]
  | addStudent id n => exact Finset.Subset.refl _
  | addCourse id n f => exact Finset.Subset.refl _
  | getStudentCourses id => exact Finset.Subset.refl _
  | getFacultyCourses id => exact Finset.Subset.refl _
  | getCourseStudents id => exact Finset.Subset.refl _
  | enrollInCourse s c =>
      simp only [UniversityManager.step, UniversityManager.getFacultyCourses]
      rw [enrollInCourse_faculty_manager]
  | assignCourse f c =>
      simp only [UniversityManager.step]
      rw [assignCourse_fst]
      cases hf : u.faculty_manager.faculty_records f with
      | none =>
          simp [UniversityManager.getFacultyCourses,
            FacultyManager.assignCourse, hf]
      | some fa =>
          by_cases hFf : F = f
          · subst hFf
            simp [UniversityManager.getFacultyCourses,
              FacultyManager.getFacultyCourses, FacultyManager.assignCourse,
              hf, Finset.subset_insert]
          · simp [UniversityManager.getFacultyCourses,
              FacultyManager.getFacultyCourses, FacultyManager.assignCourse,
              hf, hFf]

/-- Any single facade operation that is not an overwriting `addCourse` of
course `C` can only grow `C`'s student set. -/
lemma step_getCourseStudents_mono (u : UniversityManager) (op : Op) (C : Int)
    (h : ∀ n f, op ≠ Op.addCourse C n f) :
    u.getCourseStudents C ⊆ (u.step op).getCourseStudents C := by
  cases op with
  | addCourse id n f =>
      have hne : C ≠ id := by
        intro hC
        exact h n f (by rw [hC])
      simp only [UniversityManager.step]
      simp [UniversityManager.getCourseStudents, UniversityManager.addCourse,
        CourseManager.getCourseStudents, CourseManager.addCourse_records, hne]
  | addStudent id n => exact Finset.Subset.refl _
  | addFaculty id n => exact Finset.Subset.refl _
  | getStudentCourses id => exact Finset.Subset.refl _
  | getFacultyCourses id => exact Finset.Subset.refl _
  | getCourseStudents id => exact Finset.Subset.refl _
  | assignCourse f c =>
      simp only [UniversityManager.step, UniversityManager.getCourseStudents]
      rw [assignCourse_course_manager]
  | enrollInCourse s c =>
      simp only [UniversityManager.step]
      cases hs : u.student_manager.student_records s with
      | none =>
          rw [enrollInCourse_eq_of_student_none u s c hs]
      | some st =>
          cases hc : u.course_manager.course_records c with
          | none =>
              rw [enrollInCourse_eq_of_course_none u s c st hs hc]
              exact Finset.Subset.refl _
          | some co =>
              rw [enrollInCourse_eq_of_both u s c st co hs hc]
              by_cases hCc : C = c
              · subst hCc
                simp [UniversityManager.getCourseStudents,
                  CourseManager.getCourseStudents, hc, Finset.subset_insert]
              · simp [UniversityManager.getCourseStudents,
                  CourseManager.getCourseStudents, hCc]

/-- C9 counterexample: the trace `edgeTrace` records the enrollment edge
between student 1 and course 2, and the subsequent operation
`addStudent 1 "b"` (a silent overwrite, spec 4.1) erases the membership of
course 2 in student 1's course set — so an edge does not survive every
subsequent operation, refuting the claim as stated. -/
theorem edge_removed_by_overwrite_addStudent :
    2 ∈ (UniversityManager.run UniversityManager.empty
          edgeTrace).getStudentCourses 1 ∧
    2 ∉ (UniversityManager.run UniversityManager.empty
          (edgeTrace ++ [Op.addStudent 1 "b"])).getStudentCourses 1 := by
  decide

/-- C9 (amended). An association edge, once recorded, survives every
subsequent facade operation except a silent overwrite of the record holding
it: membership in `getStudentCourses S` persists across any operation
sequence containing no `addStudent S _`, membership in
`getFacultyCourses F` across sequences with no `addFaculty F _`, and
membership in `getCourseStudents C` across sequences with no
`addCourse C _ _`. -/
theorem edges_persist_without_overwrite (u : UniversityManager)
    (ops : List Op) :
    (∀ S C, C ∈ u.getStudentCourses S →
      (∀ n, Op.addStudent S n ∉ ops) →
      C ∈ (u.run ops).getStudentCourses S) ∧
    (∀ F C, C ∈ u.getFacultyCourses F →
      (∀ n, Op.addFaculty F n ∉ ops) →
      C ∈ (u.run ops).getFacultyCourses F) ∧
    (∀ C S, S ∈ u.getCourseStudents C →
      (∀ n f, Op.addCourse C n f ∉ ops) →
      S ∈ (u.run ops).getCourseStudents C) := by
  induction ops generalizing u with
  | nil => exact ⟨fun S C h _ => h, fun F C h _ => h, fun C S h _ => h⟩
  | cons op ops ih =>
      refine ⟨fun S C hmem hnot => ?_, fun F C hmem hnot => ?_,
        fun C S hmem hnot => ?_⟩
      · have h1 : ∀ n, op ≠ Op.addStudent S n := by
          intro n hop
          exact hnot n (by rw [hop]; exact List.mem_cons_self _ _)
        have h2 : ∀ n, Op.addStudent S n ∉ ops := by
          intro n hin
          exact hnot n (List.mem_cons_of_mem _ hin)
        exact (ih (u.step op)).1 S C
          (step_getStudentCourses_mono u op S h1 hmem) h2
      · have h1 : ∀ n, op ≠ Op.addFaculty F n := by
          intro n hop
          exact hnot n (by rw [hop]; exact List.mem_cons_self _ _)
        have h2 : ∀ n, Op.addFaculty F n ∉ ops := by
          intro n hin
          exact hnot n (List.mem_cons_of_mem _ hin)
        exact (ih (u.step op)).2.1 F C
          (step_getFacultyCourses_mono u op F h1 hmem) h2
      · have h1 : ∀ n f, op ≠ Op.addCourse C n f := by
          intro n f hop
          exact hnot n f (by rw [hop]; exact List.mem_cons_self _ _)
        have h2 : ∀ n f, Op.addCourse C n f ∉ ops := by
          intro n f hin
          exact hnot n f (List.mem_cons_of_mem _ hin)
        exact (ih (u.step op)).2.2 C S
          (step_getCourseStudents_mono u op C h1 hmem) h2

/-- Witness for the amended C9: the edge recorded by `edgeTrace` survives a
subsequent add of a different student. -/
theorem edges_persist_without_overwrite_witness :
    2 ∈ ((UniversityManager.run UniversityManager.empty edgeTrace).run
          [Op.addStudent 9 "z"]).getStudentCourses 1 :=
  (edges_persist_without_overwrite
      (UniversityManager.run UniversityManager.empty edgeTrace)
      [Op.addStudent 9 "z"]).1 1 2 (by decide)
    (by intro n hn; simp at hn)

/-- `SymInv` depends only on the student and course stores, so it transfers
between states sharing them. -/
lemma SymInv_of_eq (u v : UniversityManager)
    (hs : v.student_manager = u.student_manager)
    (hc : v.course_manager = u.course_manager)
    (h : SymInv u) : SymInv v := by
  obtain ⟨h1, h2, h3⟩ := h
  refine ⟨fun S C st co hst hco => ?_, fun C co hco S hS => ?_,
    fun S st hst C hC => ?_⟩
  · rw [hs] at hst
    rw [hc] at hco
    exact h1 S C st co hst hco
  · rw [hc] at hco
    rw [hs]
    exact h2 C co hco S hS
  · rw [hs] at hst
    rw [hc]
    exact h3 S st hst C hC

/-- The empty registry satisfies the symmetry invariant vacuously. -/
lemma SymInv_empty : SymInv UniversityManager.empty := by
  refine ⟨fun S C st co hst hco => ?_, fun C co hco S hS => ?_,
    fun S st hst C hC => ?_⟩
  · simp [UniversityManager.empty, StudentManager.empty] at hst
  · simp [UniversityManager.empty, CourseManager.empty] at hco
  · simp [UniversityManager.empty, StudentManager.empty] at hst

/-- One clean facade step preserves the symmetry invariant. -/
lemma SymInv_step (u : UniversityManager) (op : Op)
    (hg : goodStep u op = true) (h : SymInv u) : SymInv (u.step op) := by
  obtain ⟨hsym, hsc, hcc⟩ := h
  cases op with
  | getStudentCourses id => exact ⟨hsym, hsc, hcc⟩
  | getFacultyCourses id => exact ⟨hsym, hsc, hcc⟩
  | getCourseStudents id => exact ⟨hsym, hsc, hcc⟩
  | addFaculty id n => exact ⟨hsym, hsc, hcc⟩
  | assignCourse f c =>
      exact SymInv_of_eq u (u.assignCourse f c).1
        (assignCourse_student_manager u f c)
        (assignCourse_course_manager u f c) ⟨hsym, hsc, hcc⟩
  | addStudent id n =>
      have hid : u.student_manager.student_records id = none := by
        simpa [goodStep, Option.isNone_iff_eq_none] using hg
      refine ⟨fun S C st co hst hco => ?_, fun C co hco S hS => ?_,
        fun S st hst C hC => ?_⟩
      · have hst2 : (if S = id then some (⟨id, n, ∅⟩ : Student)
            else u.student_manager.student_records S) = some st := hst
        have hco2 : u.course_manager.course_records C = some co := hco
        by_cases hS : S = id
        · subst hS
          rw [if_pos rfl] at hst2
          obtain rfl := Option.some.inj hst2
          constructor
          · intro hmem
            have := hsc C co hco2 S hmem
            rw [hid] at this
            cases this
          · intro hmem
            simp at hmem
        · rw [if_neg hS] at hst2
          exact hsym S C st co hst2 hco2
      · have hco2 : u.course_manager.course_records C = some co := hco
        show ((if S = id then some (⟨id, n, ∅⟩ : Student)
            else u.student_manager.student_records S)).isSome = true
        by_cases hS2 : S = id
        · simp [hS2]
        · rw [if_neg hS2]
          exact hsc C co hco2 S hS
      · have hst2 : (if S = id then some (⟨id, n, ∅⟩ : Student)
            else u.student_manager.student_records S) = some st := hst
        by_cases hS : S = id
        · subst hS
          rw [if_pos rfl] at hst2
          obtain rfl := Option.some.inj hst2
          simp at hC
        · rw [if_neg hS] at hst2
          exact hcc S st hst2 C hC
  | addCourse id n f =>
      have hid : u.course_manager.course_records id = none := by
        simpa [goodStep, Option.isNone_iff_eq_none] using hg
      refine ⟨fun S C st co hst hco => ?_, fun C co hco S hS => ?_,
        fun S st hst C hC => ?_⟩
      · have hst2 : u.student_manager.student_records S = some st := hst
        have hco2 : (if C = id then some (⟨id, n, f, ∅⟩ : Course)
            else u.course_manager.course_records C) = some co := hco
        by_cases hC : C = id
        · subst hC
          rw [if_pos rfl] at hco2
          obtain rfl := Option.some.inj hco2
          constructor
          · intro hmem
            simp at hmem
          · intro hmem
            have := hcc S st hst2 C hmem
            rw [hid] at this
            cases this
        · rw [if_neg hC] at hco2
          exact hsym S C st co hst2 hco2
      · have hco2 : (if C = id then some (⟨id, n, f, ∅⟩ : Course)
            else u.course_manager.course_records C) = some co := hco
        by_cases hC : C = id
        · subst hC
          rw [if_pos rfl] at hco2
          obtain rfl := Option.some.inj hco2
          simp at hS
        · rw [if_neg hC] at hco2
          exact hsc C co hco2 S hS
      · have hst2 : u.student_manager.student_records S = some st := hst
        show ((if C = id then some (⟨id, n, f, ∅⟩ : Course)
            else u.course_manager.course_records C)).isSome = true
        by_cases hC2 : C = id
        · simp [hC2]
        · rw [if_neg hC2]
          exact hcc S st hst2 C hC
  | enrollInCourse s c =>
      simp only [goodStep, Bool.and_eq_true] at hg
      obtain ⟨st, hs⟩ := Option.isSome_iff_exists.mp hg.1
      obtain ⟨co, hc⟩ := Option.isSome_iff_exists.mp hg.2
      show SymInv (u.enrollInCourse s c).1
      rw [enrollInCourse_eq_of_both u s c st co hs hc]
      refine ⟨fun S C stx cox hst hco => ?_, fun C cox hco S hSmem => ?_,
        fun S stx hst C hCmem => ?_⟩
      · have hst2 : (if S = s
            then some { st with courses := insert c st.courses }
            else u.student_manager.student_records S) = some stx := hst
        have hco2 : (if C = c
            then some { co with students := insert s co.students }
            else u.course_manager.course_records C) = some cox := hco
        by_cases hS : S = s <;> by_cases hC : C = c
        · subst hS; subst hC
          rw [if_pos rfl] at hst2 hco2
          obtain rfl := Option.some.inj hst2
          obtain rfl := Option.some.inj hco2
          simp
        · subst hS
          rw [if_pos rfl] at hst2
          rw [if_neg hC] at hco2
          obtain rfl := Option.some.inj hst2
          have hold := hsym S C st cox hs hco2
          simp [Finset.mem_insert, hC, hold]
        · subst hC
          rw [if_neg hS] at hst2
          rw [if_pos rfl] at hco2
          obtain rfl := Option.some.inj hco2
          have hold := hsym S C stx co hst2 hc
          simp [Finset.mem_insert, hS, hold]
        · rw [if_neg hS] at hst2
          rw [if_neg hC] at hco2
          exact hsym S C stx cox hst2 hco2
      · have hco2 : (if C = c
            then some { co with students := insert s co.students }
            else u.course_manager.course_records C) = some cox := hco
        show ((if S = s
            then some { st with courses := insert c st.courses }
            else u.student_manager.student_records S)).isSome = true
        by_cases hS : S = s
        · simp [hS]
        · rw [if_neg hS]
          by_cases hC : C = c
          · subst hC
            rw [if_pos rfl] at hco2
            obtain rfl := Option.some.inj hco2
            have hSmem2 : S ∈ co.students := by
              rcases Finset.mem_insert.mp hSmem with h1 | h1
              · exact absurd h1 hS
              · exact h1
            exact hsc C co hc S hSmem2
          · rw [if_neg hC] at hco2
            exact hsc C cox hco2 S hSmem
      · have hst2 : (if S = s
            then some { st with courses := insert c st.courses }
            else u.student_manager.student_records S) = some stx := hst
        show ((if C = c
            then some { co with students := insert s co.students }
            else u.course_manager.course_records C)).isSome = true
        by_cases hC : C = c
        · simp [hC]
        · rw [if_neg hC]
          by_cases hS : S = s
          · subst hS
            rw [if_pos rfl] at hst2
            obtain rfl := Option.some.inj hst2
            have hCmem2 : C ∈ st.courses := by
              rcases Finset.mem_insert.mp hCmem with h1 | h1
              · exact absurd h1 hC
              · exact h1
            exact hcc S st hs C hCmem2
          · rw [if_neg hS] at hst2
            exact hcc S stx hst2 C hCmem

/-- A clean run from a state satisfying the symmetry invariant ends in a
state satisfying it. -/
lemma SymInv_run (u : UniversityManager) (ops : List Op) (h : SymInv u)
    (hg : goodRun u ops = true) : SymInv (u.run ops) := by
  induction ops generalizing u with
  | nil => exact h
  | cons op ops ih =>
      simp only [goodRun, Bool.and_eq_true] at hg
      exact ih (u.step op) (SymInv_step u op hg.1 h) hg.2

/-- C3 counterexample: the facade trace `symBreakTrace`, which contains an
`enrollInCourse` call that fails with NotFound, reaches a state in which
student 1 and course 2 are both present in their stores, course 2 is in
student 1's course set, yet student 1 is not in course 2's student set —
refuting the claimed reachable-state symmetry. -/
theorem facade_symmetry_fails_after_failed_enroll :
    ((UniversityManager.run UniversityManager.empty
        symBreakTrace).student_manager.student_records 1).isSome = true ∧
    ((UniversityManager.run UniversityManager.empty
        symBreakTrace).course_manager.course_records 2).isSome = true ∧
    2 ∈ (UniversityManager.run UniversityManager.empty
        symBreakTrace).getStudentCourses 1 ∧
    1 ∉ (UniversityManager.run UniversityManager.empty
        symBreakTrace).getCourseStudents 2 := by
  decide

/-- C3 (amended). Enrollment symmetry holds in every state reachable from
the empty registry by a facade-operation sequence that is clean: every
`addStudent` and `addCourse` uses a fresh id (no silent overwrite) and
every `enrollInCourse` is called with both its student and its course
present (hence no call fails with NotFound). -/
theorem facade_symmetry_of_goodRun (ops : List Op)
    (hg : goodRun UniversityManager.empty ops = true) :
    EnrollSym (UniversityManager.run UniversityManager.empty ops) :=
  (SymInv_run UniversityManager.empty ops SymInv_empty hg).1

/-- Witness for the amended C3 on the clean trace `edgeTrace`. -/
theorem facade_symmetry_of_goodRun_witness :
    EnrollSym (UniversityManager.run UniversityManager.empty edgeTrace) :=
  facade_symmetry_of_goodRun edgeTrace (by decide)

end NSU
